import Mathlib

/-!  Verification of the firefight permission-denied simulator.

The definitions below are a shallow embedding of `src/firefight.js`:

* the console-transcript parser `processTraceLine` (with its global state
  `simulationConsoleLogs` / `lastTestIndex`, modelled as `ParserState`),
* the simulation orchestrator `_simulateCalls` / `_simulateCall`
  (modelled as `simulateCallsE` / `simulateCall` over per-call behaviours),
* the promise chain `simulationQueue` (modelled denotationally by
  `enqueue` / `runQueue` over settled-promise values), and
* the classifier `isPermissionDenied`.

JavaScript specifics are modelled explicitly: strings are Lean `String`s,
`undefined` is `Option.none`, string truthiness is non-emptiness, a thrown
exception is `Option.none` (for the parser) or `Except.error` (for the
orchestrator), and JS array indexing/assignment semantics are spelled out in
`jsIndexGet` / `jsIndexSet`.
-/

namespace Firefight

/-- Characters of the JavaScript regex class `\s` (ECMAScript WhiteSpace and
LineTerminator code points). -/
def isJsSpace (c : Char) : Bool :=
  let n := c.toNat
  n = 32 || n = 9 || n = 10 || n = 11 || n = 12 || n = 13 || n = 160 ||
  n = 0x1680 || (0x2000 ≤ n && n ≤ 0x200A) || n = 0x2028 || n = 0x2029 ||
  n = 0x202F || n = 0x205F || n = 0x3000 || n = 0xFEFF

/-- JavaScript line terminators: the characters that `.` in a regex (without
the `s` flag) does not match. -/
def isJsLineTerm (c : Char) : Bool :=
  let n := c.toNat
  n = 10 || n = 13 || n = 0x2028 || n = 0x2029

/-- Fuelled worker for `stripFirebase`.  Each iteration strips one repetition
of `FIREBASE: ` followed by an optional newline (the greedy semantics of
`(FIREBASE: \n?)+`); the fuel `s.length` is ample since every iteration
consumes at least ten characters. -/
def stripFbAux : Nat → List Char → List Char
  | 0, s => s
  | fuel + 1, s =>
    if s.take 10 = "FIREBASE: ".toList then
      let r := s.drop 10
      stripFbAux fuel (if r.head? = some '\n' then r.drop 1 else r)
    else s

/-- Embedding of `line.replace(/^(FIREBASE: \n?)+/, '')`: remove the leading
repetitions of the diagnostic marker. -/
def stripFirebase (s : List Char) : List Char :=
  stripFbAux s.length s

/-- Index of the last `':'` in a character list, if any. -/
def lastColon : List Char → Option Nat
  | [] => none
  | c :: rest =>
    match lastColon rest with
    | some k => some (k + 1)
    | none => if c = ':' then some 0 else none

/-- Embedding of the rewrite
`line.replace(/^\s+([^.]*):(?:\.(read|write|validate):)?.*/g, (m, g1, g2) => ...)`.

Regex semantics, made deterministic: `\s+` takes the maximal whitespace
prefix (backtracking it cannot help, since `':'` is not whitespace); `[^.]*`
is greedy, so `g1` ends at the last `':'` before the first `'.'`; the
optional tag group matches exactly when `.read:`, `.write:` or `.validate:`
immediately follows that colon; `.*` then consumes up to the first line
terminator, so everything from that terminator on survives the replacement.
With the `g` flag but an un-multiline `^` anchor at most one replacement
happens.  If the pattern does not match, the line is unchanged. -/
def ruleRewrite (s : List Char) : List Char :=
  let w := s.takeWhile isJsSpace
  if w.isEmpty then s else
  let r := s.drop w.length
  let span := r.takeWhile (fun c => !(c = '.'))
  match lastColon span with
  | none => s
  | some k =>
    let g1 := r.take k
    let after := r.drop (k + 1)
    let tagRest : Option String × List Char :=
      if after.take 6 = ".read:".toList then (some "read", after.drop 6)
      else if after.take 7 = ".write:".toList then (some "write", after.drop 7)
      else if after.take 10 = ".validate:".toList then (some "validate", after.drop 10)
      else (none, after)
    let kind : String :=
      match tagRest.1 with
      | none => "read"
      | some t => if t = "validate" then "value" else t
    let tail := tagRest.2.dropWhile (fun c => !(isJsLineTerm c))
    ' ' :: (kind.toList ++ (' ' :: g1)) ++ tail

/-- Embedding of `line.match(/^\s+=> (true|false)/)`: `some b` returns the
captured boolean, `none` means no match. -/
def matchOutcome (s : List Char) : Option Bool :=
  let w := s.takeWhile isJsSpace
  if w.isEmpty then none else
  let r := s.drop w.length
  if r.take 7 = "=> true".toList then some true
  else if r.take 8 = "=> false".toList then some false
  else none

/-- Embedding of `/^\s+/.test(line)`. -/
def testIndent (s : List Char) : Bool :=
  match s.head? with
  | some c => isJsSpace c
  | none => false

/-- Embedding of `/^\d+:\d+: /.test(line)` (a rule-source location marker). -/
def numberedTest (s : List Char) : Bool :=
  let d1 := s.takeWhile Char.isDigit
  if d1.isEmpty then false else
  match s.drop d1.length with
  | ':' :: r2 =>
    let d2 := r2.takeWhile Char.isDigit
    if d2.isEmpty then false else
    match r2.drop d2.length with
    | ':' :: ' ' :: _ => true
    | _ => false
  | _ => false

/-- The parser's process-wide mutable state: the trace buffer
`simulationConsoleLogs`, the pending cursor `lastTestIndex` (`Option.none`
models the JS value `undefined`), and `undefinedProp`, the value stored under
the `"undefined"` property key of the current buffer array object — a JS
write `arr[undefined] = v` converts the index to that string key, and a later
read `arr[undefined]` returns it.  Reassigning `simulationConsoleLogs = []`
creates a fresh array, so the property resets with the buffer. -/
structure ParserState where
  simulationConsoleLogs : List String
  lastTestIndex : Option Nat
  undefinedProp : Option String
deriving DecidableEq, Repr

/-- JS array read `arr[i]` where `i` may be `undefined`: a numeric index past
the end reads `undefined`; the index `undefined` is converted to the property
key `"undefined"`, reading the array object's property of that key
(`undefined` when it was never written). -/
def jsIndexGet (l : List String) (prop : Option String) : Option Nat → Option String
  | none => prop
  | some k => l[k]?

/-- JS string coercion of a possibly-`undefined` value, as it appears in a
string concatenation. -/
def jsStr : Option String → String
  | none => "undefined"
  | some s => s

/-- JS array write `arr[i] = v` where `i` may be `undefined`, returning the
new elements and the new `"undefined"`-property value: writing at `undefined`
stores `v` under that property key and leaves the elements untouched; writing
past the end extends the array (holes are modelled as `""`, which is how
`join` renders them — the only way this program ever observes them). -/
def jsIndexSet (l : List String) (prop : Option String) (i : Option Nat)
    (v : String) : List String × Option String :=
  match i with
  | none => (l, some v)
  | some k =>
    if k < l.length then (l.set k v, prop)
    else (l ++ List.replicate (k - l.length) "" ++ [v], prop)

/-- JS `arr.splice(start, 1)` where `start` may be `undefined`:
`ToIntegerOrInfinity(undefined)` is `0`, so a clear cursor removes the
element at index 0 (nothing on an empty array); the `"undefined"` property is
not an index property and is untouched. -/
def jsSplice1 (l : List String) : Option Nat → List String
  | none => l.eraseIdx 0
  | some k => l.eraseIdx k

/-- Embedding of `lastTestIndex === simulationConsoleLogs.length - 1`
(strict JS equality: `undefined` equals no number, and for an empty buffer
the right-hand side is `-1`, matched by no `Nat`). -/
def popCond (st : ParserState) : Bool :=
  match st.lastTestIndex with
  | some k => k + 1 == st.simulationConsoleLogs.length
  | none => false

/-- Branch structure of `processTraceLine` after the two replaces: `l` is the
line with the marker stripped and the rule-check rewrite applied.  Returns
`none` when the JS code throws: the only throwing site is the `=> true`
branch reading `simulationConsoleLogs[lastTestIndex].startsWith` while that
lookup yields `undefined` — a numeric cursor past the buffer's end, or a
clear cursor with no `"undefined"`-keyed property stored on the array. -/
def processCore (l : List Char) (st : ParserState) : Option ParserState :=
  let line' := String.mk l
  if testIndent l then
    match matchOutcome l with
    | some b =>
      if b then
        match jsIndexGet st.simulationConsoleLogs st.undefinedProp st.lastTestIndex with
        | none => none
        | some s =>
          if " value".toList.isPrefixOf s.toList then
            some ⟨jsSplice1 st.simulationConsoleLogs st.lastTestIndex, none,
                  st.undefinedProp⟩
          else
            let w := jsIndexSet st.simulationConsoleLogs st.undefinedProp
                       st.lastTestIndex (" ✓" ++ s)
            some ⟨w.1, none, w.2⟩
      else
        let w := jsIndexSet st.simulationConsoleLogs st.undefinedProp st.lastTestIndex
                   (" ✗" ++ jsStr (jsIndexGet st.simulationConsoleLogs st.undefinedProp
                                     st.lastTestIndex))
        some ⟨w.1, none, w.2⟩
    | none =>
      let buf :=
        if popCond st then st.simulationConsoleLogs.dropLast
        else st.simulationConsoleLogs
      some ⟨buf ++ [line'], some buf.length, st.undefinedProp⟩
  else if numberedTest l then
    some ⟨st.simulationConsoleLogs ++ [String.mk ("   ".toList ++ l)], st.lastTestIndex,
          st.undefinedProp⟩
  else
    let buf :=
      if popCond st then st.simulationConsoleLogs.dropLast
      else st.simulationConsoleLogs
    some ⟨buf ++ [line'], none, st.undefinedProp⟩

/-- Embedding of `processTraceLine(line)` from `src/firefight.js:150`: strip
the `FIREBASE: ` marker repetitions, apply the rule-check rewrite, then
dispatch on the line's shape. -/
def processTraceLine (line : String) (st : ParserState) : Option ParserState :=
  processCore (ruleRewrite (stripFirebase line.toList)) st

/-- Feed a list of raw lines through `processTraceLine`.  The boolean is
`true` when some line threw; processing stops there and the returned state is
the state at the throw (the throwing branch mutates nothing before it
throws). -/
def runLinesSt : List String → ParserState → ParserState × Bool
  | [], st => (st, false)
  | l :: ls, st =>
    match processTraceLine l st with
    | none => (st, true)
    | some st' => runLinesSt ls st'

/-- Feed a list of raw lines through the parser, `none` if any line threw. -/
def runLines (ls : List String) (st : ParserState) : Option ParserState :=
  let r := runLinesSt ls st
  if r.2 then none else some r.1

/-- A JS `Error`-like value as this program inspects it: its `name` (used by
`Error.prototype.toString`), and possibly-absent `code` and `message`
string fields (`none` models `undefined`). -/
structure JsError where
  name : String
  code : Option String
  message : Option String
deriving DecidableEq, Repr

/-- JS truthiness of a possibly-absent string: `undefined` and `""` are
falsy. -/
def jsTruthy : Option String → Bool
  | none => false
  | some s => !(s == "")

/-- Embedding of `String.prototype.toLowerCase` (the ASCII case mappings; the
strings this program compares against are ASCII). -/
def jsToLower (s : String) : String :=
  String.mk (s.toList.map Char.toLower)

/-- Embedding of `Simulator.isPermissionDenied` (`src/firefight.js:65`):
`const code = error.code || error.message; return code && code.toLowerCase()
=== 'permission_denied';` — the result is the truthiness of the JS return
value. -/
def isPermissionDenied (e : JsError) : Bool :=
  match (if jsTruthy e.code then e.code else e.message) with
  | none => false
  | some s => !(s == "") && jsToLower s == "permission_denied"

/-- JS template-string rendering of an error, per `Error.prototype.toString`:
the name, then `": "` and the message when the message is non-empty. -/
def jsErrorDisplay (e : JsError) : String :=
  match e.message with
  | none => e.name
  | some m => if m = "" then e.name else e.name ++ ": " ++ m

/-- The `TypeError` Node raises when `processTraceLine` reads
`.startsWith` of `undefined`. -/
def parserTypeError : JsError :=
  ⟨"TypeError", none, some "Cannot read properties of undefined (reading 'startsWith')"⟩

/-- Embedding of the interceptor's filter test
`/^(FIREBASE: \n?)+/.test(message)`: true iff at least one repetition is
present, i.e. the message starts with the marker. -/
def firebaseLine (s : String) : Bool :=
  "FIREBASE: ".toList.isPrefixOf s.toList

/-- The externally-determined behaviour of one simulated database call: the
raw console messages emitted while it runs, and `some e` when the awaited
operation rejects with error `e` (`none` = the call succeeds). -/
structure CallBehavior where
  emitted : List String
  failure : Option JsError
deriving DecidableEq, Repr

/-- Embedding of `Simulator._simulateCall` (`src/firefight.js:125`): reset
`simulationConsoleLogs`, run the call while the intercepted console routes
marker-prefixed messages through `processTraceLine`, then classify.  A parser
throw unwinds synchronously out of the client's `console.log` call into this
method's `catch`, whose error is not permission-denied.  Returns the call's
result (`none` models the JS `undefined` returned on success) and the
process-wide cursor as the call leaves it. -/
def simulateCall (cur : Option Nat) (b : CallBehavior) : Option String × Option Nat :=
  let r := runLinesSt (b.emitted.filter firebaseLine) ⟨[], cur, none⟩
  if r.2 then
    (some ("Got a different error in simulation: " ++ jsErrorDisplay parserTypeError),
     r.1.lastTestIndex)
  else
    match b.failure with
    | none => (none, r.1.lastTestIndex)
    | some e =>
      if isPermissionDenied e then
        (some (String.intercalate "\n" r.1.simulationConsoleLogs), r.1.lastTestIndex)
      else
        (some ("Got a different error in simulation: " ++ jsErrorDisplay e),
         r.1.lastTestIndex)

/-- The `for (const call of calls)` loop of `Simulator._simulateCalls`
(`src/firefight.js:113`), with its `traces` accumulator: a call's trace is
pushed only when truthy (a non-empty string). -/
def simulateCallsLoop : Option Nat → List String → List CallBehavior →
    List String × Option Nat
  | cur, traces, [] => (traces, cur)
  | cur, traces, b :: bs =>
    let r := simulateCall cur b
    simulateCallsLoop r.2
      (match r.1 with
       | some s => if s ≠ "" then traces ++ [s] else traces
       | none => traces) bs

/-- The body of `Simulator._simulateCalls` without its `try`/`catch`:
authentication may reject (`.error`), otherwise the calls run and the result
string is produced (`src/firefight.js:108`). -/
def simulateCallsBody (authFailure : Option JsError) (cur : Option Nat)
    (calls : List CallBehavior) : Except JsError (String × Option Nat) :=
  match authFailure with
  | some e => .error e
  | none =>
    let r := simulateCallsLoop cur [] calls
    .ok ((if r.1.length = 0 then "Unable to reproduce error in simulation"
          else String.intercalate "\n\n" r.1), r.2)

/-- Embedding of `Simulator._simulateCalls` including its `try`/`catch`: any
exception escaping the body becomes the `Error running simulation` string. -/
def simulateCallsE (authFailure : Option JsError) (cur : Option Nat)
    (calls : List CallBehavior) : Except JsError (String × Option Nat) :=
  match simulateCallsBody authFailure cur calls with
  | .error e => .ok ("Error running simulation: " ++ jsErrorDisplay e, cur)
  | .ok r => .ok r

/-- Claim-side reformulation for C4: the per-call traces that get
contributed, i.e. the truthy (non-empty) results of the calls, in order. -/
def contributedTraces : Option Nat → List CallBehavior → List String
  | _, [] => []
  | cur, b :: bs =>
    let r := simulateCall cur b
    match r.1 with
    | some s => if s ≠ "" then s :: contributedTraces r.2 bs else contributedTraces r.2 bs
    | none => contributedTraces r.2 bs

/-- A task submitted to the simulation queue, modelled denotationally: the
events it emits while running (opaque labels) and the settlement of the
promise it returns. -/
structure QTask where
  events : List String
  result : Except String String
deriving Repr

/-- The settled state of a promise chain: the log of events emitted so far
and the fate of the current tail. -/
abbrev QState := List String × Except String String

/-- Denotation of `p.then(() => task())`: the task runs only if `p`
fulfilled; a rejection of `p` propagates and the task is skipped. -/
def pThen (p : QState) (t : QTask) : QState :=
  match p.2 with
  | .error e => (p.1, .error e)
  | .ok _ => (p.1 ++ t.events, t.result)

/-- Denotation of `p.catch(() => {})`: a rejection is swallowed and replaced
by fulfilment with `undefined` (modelled as `""`). -/
def pCatchIgnore (p : QState) : QState :=
  match p.2 with
  | .error _ => (p.1, .ok "")
  | .ok v => (p.1, .ok v)

/-- Embedding of the enqueue in `Simulator._simulate`
(`src/firefight.js:102`): `simulationQueue =
simulationQueue.catch(() => {}).then(() => this._simulateCalls(...))`. -/
def enqueue (p : QState) (t : QTask) : QState :=
  pThen (pCatchIgnore p) t

/-- Run a whole submission sequence through the queue, starting from the
initial `Promise.resolve()` (`src/firefight.js:6`). -/
def runQueue (tasks : List QTask) : QState :=
  tasks.foldl enqueue ([], .ok "")

/-- Claim-side predicate for C7, following the claim's words: the error's
code (or, when the code is absent, its message) case-insensitively equals
`permission_denied`. -/
def claimPermissionDenied (e : JsError) : Bool :=
  match e.code with
  | some c => jsToLower c == "permission_denied"
  | none =>
    match e.message with
    | some m => jsToLower m == "permission_denied"
    | none => false

/-- Amended predicate for C7: the fallback to `message` happens whenever
`code` is falsy (absent or empty), not only when it is absent. -/
def amendedPermissionDenied (e : JsError) : Bool :=
  match (if jsTruthy e.code then e.code else e.message) with
  | some s => jsToLower s == "permission_denied"
  | none => false

/-- Cursor validity: the pending cursor is clear, or indexes an existing
trace-buffer entry. -/
def cursorOk (st : ParserState) : Prop :=
  st.lastTestIndex = none ∨
  ∃ k, st.lastTestIndex = some k ∧ k < st.simulationConsoleLogs.length

/-- C1 counterexample: on the raw lines `"  a: .write:x"`, `"  b: .write:y"`,
`"  => false"` from an empty buffer and clear cursor, the final buffer is not
`["✗ write b"]` — the space after the rule-name colon keeps the `.write:` tag
group from matching, so the kind defaults to `read`, and every entry carries
the rewrite's leading space. -/
theorem c1_counterexample :
    ¬ ((runLines ["  a: .write:x", "  b: .write:y", "  => false"]
          ⟨[], none, none⟩).map ParserState.simulationConsoleLogs = some ["✗ write b"]) := by
  decide

/-- C1 (amended): the stale-pending supersession does happen — after the
first two lines only rule `b`'s entry remains — but both lines rewrite to
`read`-kind (the space after the colon prevents the `.write:` tag from being
captured) and entries keep a leading space, so the final buffer holds exactly
one entry `" ✗ read b"`. -/
theorem c1_amended :
    runLinesSt ["  a: .write:x", "  b: .write:y"] ⟨[], none, none⟩ =
      (⟨[" read b"], some 0, none⟩, false) ∧
    runLinesSt ["  a: .write:x", "  b: .write:y", "  => false"] ⟨[], none, none⟩ =
      (⟨[" ✗ read b"], none, none⟩, false) := by
  decide

/-- C2 counterexample: on the raw lines `"  foo: .read:bar"`, `"  => true"`
from an empty buffer and clear cursor, the final buffer is not
`["✓ read foo"]` — the entry carries a leading space. -/
theorem c2_counterexample :
    ¬ ((runLines ["  foo: .read:bar", "  => true"] ⟨[], none, none⟩).map
        ParserState.simulationConsoleLogs = some ["✓ read foo"]) := by
  decide

/-- C2 (amended): the run yields exactly one entry, `" ✓ read foo"` — the
rewrite emits `" read foo"` with a leading space and the outcome prepends
`" ✓"`. -/
theorem c2_amended :
    runLinesSt ["  foo: .read:bar", "  => true"] ⟨[], none, none⟩ =
      (⟨[" ✓ read foo"], none, none⟩, false) := by
  decide

/-- C3 counterexample: on the raw lines `"  foo: .validate:bar"`,
`"  => true"` from an empty buffer and clear cursor, the buffer does not end
empty. -/
theorem c3_counterexample :
    ¬ ((runLines ["  foo: .validate:bar", "  => true"] ⟨[], none, none⟩).map
        ParserState.simulationConsoleLogs = some []) := by
  decide

/-- C3 (amended): with the space after the rule-name colon the `.validate:`
tag is not captured, so the entry rewrites to `" read foo"` (read-kind, not
value-kind) and the `true` outcome annotates it instead of removing it: the
buffer ends as `[" ✓ read foo"]`.  Only without the space
(`"  foo:.validate:bar"`) does the entry become value-kind and get removed,
leaving the buffer empty. -/
theorem c3_amended :
    runLinesSt ["  foo: .validate:bar", "  => true"] ⟨[], none, none⟩ =
      (⟨[" ✓ read foo"], none, none⟩, false) ∧
    runLinesSt ["  foo:.validate:bar", "  => true"] ⟨[], none, none⟩ =
      (⟨[], none, none⟩, false) := by
  decide

/-- Helper: the implementation's classifier agrees everywhere with the
falsy-aware predicate. -/
theorem isPermissionDenied_eq_amended (e : JsError) :
    isPermissionDenied e = amendedPermissionDenied e := by
  unfold isPermissionDenied amendedPermissionDenied
  cases h : (if jsTruthy e.code then e.code else e.message) with
  | none => simp [jsTruthy]
  | some s =>
    by_cases hs : s = ""
    · subst hs; simp [jsTruthy]; decide
    · simp [jsTruthy, hs]

/-- C7 counterexample: for the error with `code = ""` and
`message = "permission_denied"` the implementation returns `true` (the `||`
falls back to the message because the code is falsy, not merely absent),
while the claim's code-or-absent reading says `false`. -/
theorem c7_counterexample :
    ¬ (isPermissionDenied ⟨"Error", some "", some "permission_denied"⟩ = true ↔
       claimPermissionDenied ⟨"Error", some "", some "permission_denied"⟩ = true) := by
  decide

/-- C7 (amended): `isPermissionDenied(error)` is true iff the error's code
(or, when the code is absent or empty — falsy — its message) case-insensitively
equals `permission_denied`; in particular it is true for
`{code: 'PERMISSION_DENIED'}` and `{message: 'permission_denied'}`, and false
for `{code: 'network_error'}`. -/
theorem c7_amended :
    (∀ e, isPermissionDenied e = true ↔ amendedPermissionDenied e = true) ∧
    isPermissionDenied ⟨"Error", some "PERMISSION_DENIED", none⟩ = true ∧
    isPermissionDenied ⟨"Error", none, some "permission_denied"⟩ = true ∧
    isPermissionDenied ⟨"Error", some "network_error", none⟩ = false := by
  refine ⟨fun e => ?_, by decide, by decide, by decide⟩
  rw [isPermissionDenied_eq_amended]

/-- Helper: the `traces` accumulator of the call loop collects exactly the
contributed (truthy) per-call traces, in order. -/
theorem simulateCallsLoop_eq (bs : List CallBehavior) :
    ∀ cur acc, (simulateCallsLoop cur acc bs).1 = acc ++ contributedTraces cur bs := by
  induction bs with
  | nil =>
    intro cur acc
    simp [simulateCallsLoop, contributedTraces]
  | cons b bs ih =>
    intro cur acc
    cases ht : (simulateCall cur b).1 with
    | none =>
      simp [simulateCallsLoop, contributedTraces, ht, ih]
    | some s =>
      by_cases hs : s = "" <;>
        simp [simulateCallsLoop, contributedTraces, ht, hs, ih]

/-- C4: after all calls run, the orchestrator returns the fixed string
`Unable to reproduce error in simulation` when no call contributed a (truthy)
trace, and otherwise the contributed traces joined with a blank line; in
particular a single call failing with a permission-denied error while zero
diagnostic lines were emitted yields the fixed string (its trace joins to the
empty — falsy — string and is not contributed). -/
theorem c4_result_aggregation (cur : Option Nat) (calls : List CallBehavior) :
    (simulateCallsE none cur calls =
      .ok ((if contributedTraces cur calls = [] then
              "Unable to reproduce error in simulation"
            else String.intercalate "\n\n" (contributedTraces cur calls)),
           (simulateCallsLoop cur [] calls).2)) ∧
    (∀ e, isPermissionDenied e = true →
      simulateCallsE none cur [⟨[], some e⟩] =
        .ok ("Unable to reproduce error in simulation", cur)) := by
  constructor
  · have h := simulateCallsLoop_eq calls cur []
    rw [List.nil_append] at h
    simp only [simulateCallsE, simulateCallsBody, h]
    rcases hc : contributedTraces cur calls with _ | ⟨t, ts⟩ <;>
      simp [hc, List.length_eq_zero]
  · intro e he
    simp [simulateCallsE, simulateCallsBody, simulateCallsLoop, simulateCall,
          runLinesSt, he, String.intercalate]

/-- Witness for C4 at a concrete input: a single `set` call rejecting with a
`PERMISSION_DENIED` error while emitting no diagnostic lines produces the
fixed message. -/
theorem c4_result_aggregation_witness :
    simulateCallsE none none [⟨[], some ⟨"Error", some "PERMISSION_DENIED", none⟩⟩] =
      .ok ("Unable to reproduce error in simulation", none) :=
  (c4_result_aggregation none [⟨[], some ⟨"Error", some "PERMISSION_DENIED", none⟩⟩]).2
    ⟨"Error", some "PERMISSION_DENIED", none⟩ (by decide)

/-- C5: the simulation body never lets an exception escape its public
boundary — for every authentication outcome and every sequence of call
behaviours (including rejecting database interactions) the result is `.ok`;
and an exception escaping to the outer catch (authentication failure, the one
raiser the inner per-call catch does not see) is converted into the single
descriptive string `Error running simulation: ...`. -/
theorem c5_no_escape (a : Option JsError) (cur : Option Nat)
    (calls : List CallBehavior) :
    (∃ out, simulateCallsE a cur calls = .ok out) ∧
    (∀ e, a = some e →
      simulateCallsE a cur calls =
        .ok ("Error running simulation: " ++ jsErrorDisplay e, cur)) := by
  constructor
  · cases a with
    | none => exact ⟨_, rfl⟩
    | some e => exact ⟨_, rfl⟩
  · rintro e rfl
    rfl

/-- Witness for C5 at a concrete input: a rejected authentication becomes the
descriptive error-result string. -/
theorem c5_no_escape_witness :
    simulateCallsE (some ⟨"Error", none, some "invalid token"⟩) none [] =
      .ok ("Error running simulation: " ++
             jsErrorDisplay ⟨"Error", none, some "invalid token"⟩, none) :=
  (c5_no_escape (some ⟨"Error", none, some "invalid token"⟩) none []).2
    ⟨"Error", none, some "invalid token"⟩ rfl

/-- Helper: one enqueue always runs the task (its events are appended to the
log whatever the previous tail's fate — the `catch` swallowed it) and the new
tail settles exactly as the task does. -/
theorem enqueue_spec (p : QState) (t : QTask) :
    (enqueue p t).1 = p.1 ++ t.events ∧ (enqueue p t).2 = t.result := by
  rcases p with ⟨log, f⟩
  cases f <;> simp [enqueue, pThen, pCatchIgnore]

/-- Helper: folding the queue from any starting chain appends every task's
events in submission order. -/
theorem foldl_enqueue_log (tasks : List QTask) :
    ∀ p : QState, (tasks.foldl enqueue p).1 = p.1 ++ (tasks.map QTask.events).flatten := by
  induction tasks with
  | nil =>
    intro p
    simp
  | cons t ts ih =>
    intro p
    rw [List.foldl_cons, ih, (enqueue_spec p t).1]
    simp

/-- C6: the simulation queue runs every submitted task, one at a time, in
submission order — the whole run's event log is the concatenation of the
tasks' event traces in submission order, so a rejection of an earlier task
never prevents a later task's events from appearing — and each enqueue makes
the new task the chain's tail: the returned promise settles exactly as the
task does, after appending the task's events to the log. -/
theorem c6_queue_order (tasks : List QTask) (p : QState) (t : QTask) :
    (runQueue tasks).1 = (tasks.map QTask.events).flatten ∧
    (enqueue p t).1 = p.1 ++ t.events ∧
    (enqueue p t).2 = t.result := by
  refine ⟨?_, (enqueue_spec p t).1, (enqueue_spec p t).2⟩
  rw [runQueue, foldl_enqueue_log]
  simp

/-- C8 counterexample: the parser is not deterministic across buffer resets
when the process-wide cursor is carried over.  On the sequence `["1:2: a",
"  => false", "  r:.read:x"]`, a first run from a fresh buffer and clear
cursor ends with the cursor at `some 1`; a second run from a fresh buffer but
that carried cursor writes the bogus entry `" ✗undefined"` at the dangling
index and yields a different buffer. -/
theorem c8_counterexample :
    (runLinesSt ["1:2: a", "  => false", "  r:.read:x"]
        ⟨[], (runLinesSt ["1:2: a", "  => false", "  r:.read:x"]
                ⟨[], none, none⟩).1.lastTestIndex, none⟩).1.simulationConsoleLogs ≠
      (runLinesSt ["1:2: a", "  => false", "  r:.read:x"]
        ⟨[], none, none⟩).1.simulationConsoleLogs := by
  decide

/-- C8 (amended): two runs of the same line sequence over fresh buffers, with
the process-wide cursor carried over, yield identical buffer contents
whenever the cursor carried into the second run equals the cursor the first
run started from (in particular whenever a run both starts and ends with the
cursor cleared); when the carried cursor differs from the starting one, the
buffers can differ. -/
theorem c8_determinism (ls : List String) (c : Option Nat) (st : ParserState)
    (h1 : runLinesSt ls ⟨[], c, none⟩ = (st, false))
    (h2 : st.lastTestIndex = c) :
    runLinesSt ls ⟨[], st.lastTestIndex, none⟩ = (st, false) := by
  rw [h2, h1]

/-- Witness for C8 at a concrete input: the sequence `["  x:.read:y",
"  => false"]` run from a clear cursor ends with a clear cursor, so the
second run reproduces the same buffer `[" ✗ read x"]`. -/
theorem c8_determinism_witness :
    runLinesSt ["  x:.read:y", "  => false"] ⟨[], none, none⟩ =
      (⟨[" ✗ read x"], none, none⟩, false) :=
  c8_determinism ["  x:.read:y", "  => false"] none ⟨[" ✗ read x"], none, none⟩
    (by decide) rfl

/-- Helper: a line on which the outcome pattern matches starts with a
whitespace character, so the indent test passes on it. -/
theorem testIndent_of_matchOutcome (l : List Char) (b : Bool)
    (h : matchOutcome l = some b) : testIndent l = true := by
  cases l with
  | nil => simp [matchOutcome] at h
  | cons c cs =>
    by_cases hc : isJsSpace c
    · simp [testIndent, hc]
    · simp [matchOutcome, List.takeWhile, hc] at h

/-- Helper: the cursor-validity invariant, stated over the branch core with
the processed line as a free variable. -/
theorem processCore_cursor (l : List Char) (st : ParserState)
    (logs' : List String) (cur' : Option Nat) (prop' : Option String)
    (h : cursorOk st) (hr : processCore l st = some ⟨logs', cur', prop'⟩) :
    cursorOk ⟨logs', cur', prop'⟩ := by
  simp only [processCore] at hr
  by_cases hi : testIndent l = true
  · rw [if_pos hi] at hr
    cases ho : matchOutcome l with
    | none =>
      simp only [ho] at hr
      injection hr with hr1
      injection hr1 with e1 e2 e3
      subst e2
      refine Or.inr ⟨_, rfl, ?_⟩
      subst e1
      simp
    | some b =>
      cases b with
      | false =>
        simp only [ho] at hr
        injection hr with hr1
        injection hr1 with e1 e2 e3
        subst e2
        exact Or.inl rfl
      | true =>
        simp only [ho] at hr
        cases hg : jsIndexGet st.simulationConsoleLogs st.undefinedProp
            st.lastTestIndex with
        | none => simp [hg] at hr
        | some s =>
          simp only [hg] at hr
          by_cases hv : (" value".toList.isPrefixOf s.toList) = true
          · rw [if_pos hv] at hr
            injection hr with hr1
            injection hr1 with e1 e2 e3
            subst e2
            exact Or.inl rfl
          · rw [if_neg hv] at hr
            injection hr with hr1
            injection hr1 with e1 e2 e3
            subst e2
            exact Or.inl rfl
  · rw [if_neg hi] at hr
    by_cases hn : numberedTest l = true
    · rw [if_pos hn] at hr
      injection hr with hr1
      injection hr1 with e1 e2 e3
      subst e2
      rcases h with hc | ⟨k, hk, hlen⟩
      · exact Or.inl hc
      · refine Or.inr ⟨k, hk, ?_⟩
        subst e1
        simp only [List.length_append, List.length_cons, List.length_nil]
        omega
    · rw [if_neg hn] at hr
      injection hr with hr1
      injection hr1 with e1 e2 e3
      subst e2
      exact Or.inl rfl

/-- C9: cursor-validity invariant — if the cursor is clear or indexes an
existing buffer entry and `processTraceLine` returns normally, then the
cursor is again clear or indexes an entry of the mutated buffer; it never
dangles past the buffer's end. -/
theorem c9_cursor_invariant (st st' : ParserState) (line : String)
    (h : cursorOk st) (hr : processTraceLine line st = some st') :
    cursorOk st' := by
  rcases st' with ⟨logs', cur', prop'⟩
  exact processCore_cursor (ruleRewrite (stripFirebase line.toList)) st
    logs' cur' prop' h hr

/-- Witness for C9 at a concrete input: processing a rule-check line from the
empty state yields a state whose cursor indexes the single pushed entry. -/
theorem c9_cursor_invariant_witness :
    cursorOk ⟨[" read x"], some 0, none⟩ :=
  c9_cursor_invariant ⟨[], none, none⟩ ⟨[" read x"], some 0, none⟩ "  x:.read:y"
    (Or.inl rfl) (by decide)

/-- C10 counterexample: an `=> true` outcome consumed while the cursor is
clear does not always throw.  An earlier `=> false` consumed with a clear
cursor executes `simulationConsoleLogs[undefined] = ' ✗' + undefined`,
storing `" ✗undefined"` under the array's `"undefined"` property key; a later
clear-cursor `=> true` reads that string back, so `.startsWith` succeeds and
the line returns normally — the transcript `["  => false", "  => true"]` runs
to completion from the pristine state. -/
theorem c10_counterexample :
    matchOutcome (ruleRewrite (stripFirebase "  => true".toList)) = some true ∧
    (processTraceLine "  => true" ⟨[], none, some " ✗undefined"⟩).isSome = true ∧
    runLinesSt ["  => false", "  => true"] ⟨[], none, none⟩ =
      (⟨[], none, some " ✓ ✗undefined"⟩, false) := by
  decide

/-- C10 (amended): parser totality under a precondition — `processTraceLine`
returns normally on every line and state provided that, whenever the
(stripped and rewritten) line matches the `=> true` outcome pattern, the
cursor indexes an existing buffer entry; without that precondition, consuming
an `=> true` outcome while the cursor is clear throws — provided no outcome
line was consumed with a clear cursor since the buffer was last reset (such a
line stores an `"undefined"`-keyed property on the array whose value a later
clear-cursor lookup reads back, avoiding the throw). -/
theorem c10_totality (line : String) (st : ParserState) :
    ((matchOutcome (ruleRewrite (stripFirebase line.toList)) = some true →
        ∃ k, st.lastTestIndex = some k ∧ k < st.simulationConsoleLogs.length) →
      (processTraceLine line st).isSome = true) ∧
    (matchOutcome (ruleRewrite (stripFirebase line.toList)) = some true →
      st.lastTestIndex = none → st.undefinedProp = none →
      processTraceLine line st = none) := by
  constructor
  · intro hpre
    show (processCore (ruleRewrite (stripFirebase line.toList)) st).isSome = true
    generalize ruleRewrite (stripFirebase line.toList) = l at hpre ⊢
    simp only [processCore]
    by_cases hi : testIndent l = true
    · rw [if_pos hi]
      cases ho : matchOutcome l with
      | none => simp [ho]
      | some b =>
        cases b with
        | false => simp [ho]
        | true =>
          obtain ⟨k, hk, hlen⟩ := hpre ho
          have hrw : st.simulationConsoleLogs[k]? = some st.simulationConsoleLogs[k] :=
            (List.getElem?_eq_some_getElem_iff _ _ hlen).mpr trivial
          simp only [ho, hk, jsIndexGet, hrw]
          by_cases hv : (" value".toList.isPrefixOf
              (st.simulationConsoleLogs[k]).toList) = true
          · rw [if_pos hv]
            rfl
          · rw [if_neg hv]
            rfl
    · rw [if_neg hi]
      by_cases hn : numberedTest l = true
      · rw [if_pos hn]
        rfl
      · rw [if_neg hn]
        rfl
  · intro hout hcur hprop
    show processCore (ruleRewrite (stripFirebase line.toList)) st = none
    generalize ruleRewrite (stripFirebase line.toList) = l at hout
    simp [processCore, jsIndexGet, testIndent_of_matchOutcome _ _ hout, hout, hcur,
          hprop]

/-- Witness for C10 at concrete inputs: an `=> true` outcome consumed while
the cursor indexes the single existing entry returns normally, and one
consumed from the pristine clear-cursor state (no stored property) throws. -/
theorem c10_totality_witness :
    (processTraceLine "  => true" ⟨[" value x"], some 0, none⟩).isSome = true ∧
    processTraceLine "  => true" ⟨[], none, none⟩ = none :=
  ⟨(c10_totality "  => true" ⟨[" value x"], some 0, none⟩).1
     (fun _ => ⟨0, rfl, by decide⟩),
   (c10_totality "  => true" ⟨[], none, none⟩).2 (by decide) rfl rfl⟩

end Firefight
